import Mathlib

/-!
Verification of the commit-message composer
`cz_conventional_commmits_jira_optional.py`.

The Python module is shallowly embedded: every string-processing helper
is translated to an executable Lean function on `String` / `List Char`.
Python strings are modelled as `String`; the ASCII whitespace set of
`str.split()` / `str.strip()` / regex `\s` is modelled by `isPySpace`
(the inputs appearing in the repository are ASCII). Errors raised by
input filters are modelled with `Except String`, carrying the error
message text.
-/

namespace Cz

/-- Whitespace set used by Python `str.split()`, `str.strip()` and the
regex class `\s` (ASCII fragment). -/
def isPySpace (c : Char) : Bool :=
  c == ' ' || c == '\t' || c == '\n' || c == '\r' || c == '\x0b' || c == '\x0c'

/-- Python `str.strip(chars)`: drop characters satisfying `p` from both
ends of the list. -/
def pyStripList (p : Char → Bool) (l : List Char) : List Char :=
  (((l.dropWhile p).reverse.dropWhile p)).reverse

/-- Python `s.strip()` (whitespace from both ends). -/
def pyStrip (s : String) : String :=
  ⟨pyStripList isPySpace s.data⟩

/-- Python `s.strip(".")`: periods are removed from **both** ends. -/
def pyStripDots (s : String) : String :=
  ⟨pyStripList (fun c => c == '.') s.data⟩

/-- Accumulator-based worker for Python `str.split()` (split on runs of
whitespace, no empty tokens). `acc` holds the current word reversed. -/
def splitWsAux : List Char → List Char → List (List Char)
  | [], acc => if acc = [] then [] else [acc.reverse]
  | c :: cs, acc =>
    if isPySpace c then
      if acc = [] then splitWsAux cs []
      else acc.reverse :: splitWsAux cs []
    else splitWsAux cs (c :: acc)

/-- Python `str.split()` on a character list. -/
def splitWs (l : List Char) : List (List Char) :=
  splitWsAux l []

/-- Python `s.split()` returning strings. -/
def pySplit (s : String) : List String :=
  (splitWs s.data).map String.mk

/-- Python `sep.join(parts)`. -/
def joinSep (sep : String) : List String → String
  | [] => ""
  | [x] => x
  | x :: xs => x ++ sep ++ joinSep sep xs

/-- List-level counterpart of `joinSep " "`. -/
def joinWs : List (List Char) → List Char
  | [] => []
  | [w] => w
  | w :: ws => w ++ ' ' :: joinWs ws

/-- Uppercase latin letter, the regex class `[A-Z]`. -/
def isUpperAZ (c : Char) : Bool := 'A' ≤ c && c ≤ 'Z'

/-- Decimal digit, the regex class `\d` (ASCII). -/
def isDigit09 (c : Char) : Bool := '0' ≤ c && c ≤ '9'

/-- Word character, the regex class `\w` (ASCII fragment). -/
def isWordChar (c : Char) : Bool := c.isAlpha || isDigit09 c || c == '_'

/-- The anchored issue-key check `re.match(r"^[A-Z]{2,}-\d+$", s)` from
`_parse_jira_issues`, translated structurally: at least two uppercase
letters, a hyphen, then at least one digit, and nothing else. The
greedy `[A-Z]{2,}` needs no backtracking because `-` is not uppercase.
(The Python `$` would also accept one trailing newline, but this check
is only ever applied to whitespace-free tokens produced by `split`.) -/
def isIssueKey (s : String) : Bool :=
  let ups := s.data.takeWhile isUpperAZ
  let rest := s.data.drop ups.length
  decide (2 ≤ ups.length) &&
    (match rest with
     | '-' :: ds => !ds.isEmpty && ds.all isDigit09
     | _ => false)

/-- Decidable equality for filter results, so that concrete filter
runs can be checked by `decide`. -/
instance : DecidableEq (Except String String) := fun x y =>
  match x, y with
  | Except.ok a, Except.ok b =>
    if h : a = b then isTrue (congrArg Except.ok h)
    else isFalse (fun he => h (Except.ok.inj he))
  | Except.error a, Except.error b =>
    if h : a = b then isTrue (congrArg Except.error h)
    else isFalse (fun he => h (Except.error.inj he))
  | Except.ok _, Except.error _ => isFalse (fun he => Except.noConfusion he)
  | Except.error _, Except.ok _ => isFalse (fun he => Except.noConfusion he)

/-- Model of the host helper `commitizen.cz.utils.required_validator`
(external dependency): returns the answer unchanged, or fails with the
given message when the answer is empty (falsy). -/
def required_validator (answer : String) (msg : String) : Except String String :=
  if answer = "" then Except.error msg else Except.ok answer

/-- `_parse_scope`: `"-".join(text.strip().split())`. -/
def _parse_scope (text : String) : String :=
  joinSep "-" (pySplit (pyStrip text))

/-- `_parse_subject`: `required_validator(text.strip(".").strip(), msg="Subject is required.")`. -/
def _parse_subject (text : String) : Except String String :=
  required_validator (pyStrip (pyStripDots text)) "Subject is required."

/-- `_parse_jira_issues`: normalise whitespace with
`" ".join(text.strip().split())`, then require every token of the
result to match the issue-key pattern, else raise with the fixed
message. -/
def _parse_jira_issues (text : String) : Except String String :=
  let issues := joinSep " " (pySplit (pyStrip text))
  if (pySplit issues).all isIssueKey then Except.ok issues
  else Except.error "Enter valid Jira issue keys (e.g., JRA-123)."

/-- The `jira_time` question filter, the lambda
`lambda x: "#time " + x if x else ""` (note: no trimming). -/
def jiraTimeFilter (x : String) : String :=
  if x = "" then "" else "#time " ++ x

/-- Modelled from the spec: the jira-time filter as claim C6 words it,
prefixing the **trimmed** input. Used only for comparison with
`jiraTimeFilter`. -/
def jiraTimeFilterSpec (x : String) : String :=
  if x = "" then "" else "#time " ++ pyStrip x

/-- Modelled from the spec: the subject filter as claim C4 words it,
trimming only **trailing** periods before trimming whitespace. Used
only for comparison with `_parse_subject`. -/
def subjectFilterSpec (text : String) : Except String String :=
  let r := pyStrip ⟨(text.data.reverse.dropWhile (fun c => c == '.')).reverse⟩
  if r = "" then Except.error "Subject is required." else Except.ok r

/-- The answers record consumed by `message` (the `TypedDict`
`ConventionalCommitsAnswers`). The Python field `prefix` is named
`ptype` here because `prefix` is a reserved word in Lean. -/
structure ConventionalCommitsAnswers where
  jira_issues : String
  jira_workflow : String
  jira_time : String
  jira_comment : String
  ptype : String
  scope : String
  subject : String
  body : String
  footer : String
  is_breaking_change : Bool

/-- `f"({scope})" if scope else ""`. -/
def formattedScope (a : ConventionalCommitsAnswers) : String :=
  if a.scope = "" then "" else "(" ++ a.scope ++ ")"

/-- The title head after the optional `!`: `prefix + formatted_scope`,
plus `"!"` when `is_breaking_change` and the
`breaking_change_exclamation_in_title` setting (`flag`) both hold. -/
def titleHead (flag : Bool) (a : ConventionalCommitsAnswers) : String :=
  let t := a.ptype ++ formattedScope a
  if a.is_breaking_change && flag then t ++ "!" else t

/-- The full title line of `message`. -/
def title (flag : Bool) (a : ConventionalCommitsAnswers) : String :=
  if a.jira_issues = "" then titleHead flag a ++ ": " ++ a.subject
  else titleHead flag a ++ ": " ++ a.jira_issues ++ " " ++ a.subject

/-- `f"\n\n{body}" if body else ""`. -/
def formattedBody (a : ConventionalCommitsAnswers) : String :=
  if a.body = "" then "" else "\n\n" ++ a.body

/-- `[x for x in [jira_workflow, jira_time, jira_comment] if x]`. -/
def jiraParts (a : ConventionalCommitsAnswers) : List String :=
  [a.jira_workflow, a.jira_time, a.jira_comment].filter (fun x => x != "")

/-- `f"\n\n{' '.join(jira_parts)}" if jira_parts else ""`. -/
def formattedJira (a : ConventionalCommitsAnswers) : String :=
  if jiraParts a = [] then "" else "\n\n" ++ joinSep " " (jiraParts a)

/-- The footer text after the breaking-change rewrite:
`footer = f"BREAKING CHANGE: {footer}"` when `is_breaking_change`. -/
def effectiveFooter (a : ConventionalCommitsAnswers) : String :=
  if a.is_breaking_change then "BREAKING CHANGE: " ++ a.footer else a.footer

/-- `f"\n\n{footer}" if footer else ""` (after the rewrite above). -/
def formattedFooter (a : ConventionalCommitsAnswers) : String :=
  if effectiveFooter a = "" then "" else "\n\n" ++ effectiveFooter a

/-- `ConventionalCommitsJiraOptionalCz.message`. The first argument is
the `breaking_change_exclamation_in_title` configuration setting. -/
def message (flag : Bool) (a : ConventionalCommitsAnswers) : String :=
  title flag a ++ formattedBody a ++ formattedJira a ++ formattedFooter a

/-- Modelled from the spec (claim C1): the composed title written
additively, `prefix + ("(" + scope + ")" if scope) + ("!" if breaking
and flag) + ": " + subject`. -/
def composedTitle (flag : Bool) (a : ConventionalCommitsAnswers) : String :=
  a.ptype ++ (if a.scope = "" then "" else "(" ++ a.scope ++ ")") ++
    (if a.is_breaking_change && flag then "!" else "") ++ ": " ++ a.subject

/-- Modelled from the spec (claim C7): collect the non-empty members of
`[jira_workflow, jira_time, jira_comment]` in that order, join with
single spaces, prepend a blank line when non-empty. -/
def metadataSectionSpec (w t c : String) : String :=
  let parts := [w, t, c].filter (fun x => x != "")
  if parts = [] then "" else "\n\n" ++ joinSep " " parts

/-- Last character of a string, if any. -/
def lastChar? (s : String) : Option Char :=
  s.data.getLast?

/-!
A small regular-expression engine, used to interpret the pattern string
returned by `schema_pattern()`. Character classes are predicates, so
the `(?s)` flag (dot matches newline) is the class that accepts every
character. The matcher is a fuel-bounded backtracking matcher in
continuation-passing style; `star` only repeats its body on strict
progress, which preserves the matched language and makes repetition of
possibly-empty groups (such as the trailing `(...)?*` of the schema
pattern) terminate.
-/

/-- Regular expressions over characters. -/
inductive RE where
  | emp : RE
  | eps : RE
  | cls : (Char → Bool) → RE
  | cat : RE → RE → RE
  | alt : RE → RE → RE
  | star : RE → RE

/-- Literal single character. -/
def reChar (c : Char) : RE := RE.cls (fun d => d == c)

/-- Literal string. -/
def reStr (s : String) : RE :=
  s.data.foldr (fun c r => RE.cat (reChar c) r) RE.eps

/-- `r?`. -/
def reOpt (r : RE) : RE := RE.alt r RE.eps

/-- `r+`. -/
def rePlus (r : RE) : RE := RE.cat r (RE.star r)

/-- `r1|r2|...|rn`, the `"|".join` of alternatives. -/
def reAltList : List RE → RE
  | [] => RE.emp
  | [r] => r
  | r :: rs => RE.alt r (reAltList rs)

/-- Fuel-bounded backtracking matcher: `reMatch fuel r s k` holds when
some prefix of `s` matches `r` and the rest satisfies continuation `k`. -/
def reMatch : Nat → RE → List Char → (List Char → Bool) → Bool
  | 0, _, _, _ => false
  | _ + 1, RE.emp, _, _ => false
  | _ + 1, RE.eps, s, k => k s
  | _ + 1, RE.cls p, s, k =>
    match s with
    | [] => false
    | c :: cs => p c && k cs
  | fuel + 1, RE.cat r1 r2, s, k =>
    reMatch fuel r1 s (fun s2 => reMatch fuel r2 s2 k)
  | fuel + 1, RE.alt r1 r2, s, k =>
    reMatch fuel r1 s k || reMatch fuel r2 s k
  | fuel + 1, RE.star r, s, k =>
    reMatch fuel r s
      (fun s2 => decide (s2.length < s.length) && reMatch fuel (RE.star r) s2 k)
      || k s

/-- Anchored acceptance (`re.match` with the trailing `$` of the
pattern): the whole input must be consumed. -/
def reAccept (fuel : Nat) (r : RE) (s : String) : Bool :=
  reMatch fuel r s.data (fun s2 => s2.isEmpty)

/-- The `change_types` tuple of `schema_pattern`. -/
def changeTypes : List String :=
  ["build", "bump", "chore", "ci", "docs", "feat", "fix", "perf",
   "refactor", "revert", "style", "test"]

/-- `jira_issues_pattern = ([A-Z]{2,}-\d+( [A-Z]{2,}-\d+)*)?`; the key
itself is `[A-Z]{2,}-\d+`. -/
def issueKeyRE : RE :=
  RE.cat (RE.cls isUpperAZ) (RE.cat (RE.cls isUpperAZ)
    (RE.cat (RE.star (RE.cls isUpperAZ))
      (RE.cat (reChar '-') (rePlus (RE.cls isDigit09)))))

/-- `([A-Z]{2,}-\d+( [A-Z]{2,}-\d+)*)?`. -/
def jiraIssuesRE : RE :=
  reOpt (RE.cat issueKeyRE (RE.star (RE.cat (reChar ' ') issueKeyRE)))

/-- `jira_metadata_pattern = (?:\s#\w+(?: [^\s#]+)?)?`. -/
def jiraMetadataRE : RE :=
  reOpt (RE.cat (RE.cls isPySpace)
    (RE.cat (reChar '#')
      (RE.cat (rePlus (RE.cls isWordChar))
        (reOpt (RE.cat (reChar ' ')
          (rePlus (RE.cls (fun c => !isPySpace c && c != '#'))))))))

/-- The full pattern of `schema_pattern()`:
`(?s)(build|...|test)(\(\S+\))?!?: ` + jira issues + `\s*([^\n\r]+)?`
+ `(\n\n.*)?` + `((?:\s#\w+(?: [^\s#]+)?)?)*` + `$`. The `(?s)` flag
is the all-accepting dot in the body group, and the final `$` together
with the `re.match` start anchor is `reAccept`. -/
def schemaPatternRE : RE :=
  RE.cat (reAltList (changeTypes.map reStr))
    (RE.cat (reOpt (RE.cat (reChar '(')
        (RE.cat (rePlus (RE.cls (fun c => !isPySpace c))) (reChar ')'))))
      (RE.cat (reOpt (reChar '!'))
        (RE.cat (reStr ": ")
          (RE.cat jiraIssuesRE
            (RE.cat (RE.star (RE.cls isPySpace))
              (RE.cat (reOpt (rePlus (RE.cls (fun c => c != '\n' && c != '\r'))))
                (RE.cat (reOpt (RE.cat (reStr "\n\n") (RE.star (RE.cls (fun _ => true)))))
                  (RE.star jiraMetadataRE))))))))

/-- The string returned by `ConventionalCommitsJiraOptionalCz.example`. -/
def exampleMessage : String :=
  "fix: correct minor typos in code\n\nsee the issue for details on the typos fixed\n\ncloses issue #12"

/-- Concrete answer set from the spec scenario
`fix(parser): handle empty input`. -/
def aW1 : ConventionalCommitsAnswers :=
  { jira_issues := "", jira_workflow := "", jira_time := "", jira_comment := "",
    ptype := "fix", scope := "parser", subject := "handle empty input",
    body := "", footer := "", is_breaking_change := false }

/-- Concrete answer set from the spec scenario with `jira_issues = "JRA-42"`. -/
def aW2 : ConventionalCommitsAnswers :=
  { jira_issues := "JRA-42", jira_workflow := "", jira_time := "", jira_comment := "",
    ptype := "fix", scope := "parser", subject := "handle empty input",
    body := "", footer := "", is_breaking_change := false }

/-- Concrete answer set with a breaking change and an empty footer. -/
def aW3 : ConventionalCommitsAnswers :=
  { jira_issues := "", jira_workflow := "", jira_time := "", jira_comment := "",
    ptype := "feat", scope := "", subject := "drop old API",
    body := "", footer := "", is_breaking_change := true }

/-- Concrete answer set whose raw `footer` free text itself ends in a
blank line. -/
def aC9 : ConventionalCommitsAnswers :=
  { jira_issues := "", jira_workflow := "", jira_time := "", jira_comment := "",
    ptype := "fix", scope := "", subject := "s",
    body := "", footer := "x\n\n", is_breaking_change := false }

/-- Concrete answer set with newline-free fields, for the C9 witness. -/
def aW9 : ConventionalCommitsAnswers :=
  { jira_issues := "", jira_workflow := "#closed", jira_time := "#time 3h",
    jira_comment := "", ptype := "fix", scope := "parser",
    subject := "handle empty input", body := "some context",
    footer := "closes ABC-1", is_breaking_change := false }

/-!
Theorems. General string helpers come first, then the claim theorems
with their witnesses and counterexamples.
-/

/-- A string is empty exactly when its character list is. -/
theorem str_eq_empty_iff (s : String) : s = "" ↔ s.data = [] :=
  ⟨fun h => by rw [h], fun h => String.ext h⟩

/-- Appending on the right cannot make a non-empty string empty. -/
theorem str_ne_empty_left (s t : String) (hs : s ≠ "") : s ++ t ≠ "" := by
  intro h
  apply hs
  rw [str_eq_empty_iff] at h ⊢
  rw [String.data_append] at h
  exact (List.append_eq_nil.mp h).1

/-- Claim C1: with empty `jira_issues`, `message` begins with — and,
when the body, metadata and footer sections are absent, equals — the
additively composed title
`prefix + ("(" + scope + ")")? + "!"? + ": " + subject`. -/
theorem claim1_empty_jira_title (flag : Bool) (a : ConventionalCommitsAnswers)
    (h : a.jira_issues = "") :
    (∃ rest, message flag a = composedTitle flag a ++ rest) ∧
    (formattedBody a = "" → formattedJira a = "" → formattedFooter a = "" →
      message flag a = composedTitle flag a) := by
  have htitle : title flag a = composedTitle flag a := by
    apply String.ext
    by_cases hb : (a.is_breaking_change && flag) = true <;>
      simp [title, titleHead, composedTitle, formattedScope, h, hb,
        String.data_append, List.append_assoc]
  constructor
  · refine ⟨formattedBody a ++ (formattedJira a ++ formattedFooter a), ?_⟩
    apply String.ext
    simp [message, htitle, String.data_append, List.append_assoc]
  · intro h1 h2 h3
    simp [message, htitle, h1, h2, h3, String.append_empty]

/-- Witness for C1 at the `fix(parser): handle empty input` scenario. -/
theorem claim1_witness :
    (∃ rest, message false aW1 = composedTitle false aW1 ++ rest) ∧
    (formattedBody aW1 = "" → formattedJira aW1 = "" → formattedFooter aW1 = "" →
      message false aW1 = composedTitle false aW1) :=
  claim1_empty_jira_title false aW1 rfl

/-- Claim C2: with non-empty `jira_issues`, the title is
`titleHead + ": " + jira_issues + " " + subject`, and `message` begins
with it. -/
theorem claim2_nonempty_jira_title (flag : Bool) (a : ConventionalCommitsAnswers)
    (h : a.jira_issues ≠ "") :
    title flag a = titleHead flag a ++ ": " ++ a.jira_issues ++ " " ++ a.subject ∧
    ∃ rest, message flag a =
      titleHead flag a ++ ": " ++ a.jira_issues ++ " " ++ a.subject ++ rest := by
  have htitle : title flag a =
      titleHead flag a ++ ": " ++ a.jira_issues ++ " " ++ a.subject := by
    simp [title, h]
  refine ⟨htitle, formattedBody a ++ (formattedJira a ++ formattedFooter a), ?_⟩
  apply String.ext
  simp [message, htitle, String.data_append, List.append_assoc]

/-- Witness for C2 at the `fix(parser): JRA-42 handle empty input`
scenario. -/
theorem claim2_witness :
    title false aW2 = titleHead false aW2 ++ ": " ++ aW2.jira_issues ++ " " ++ aW2.subject ∧
    ∃ rest, message false aW2 =
      titleHead false aW2 ++ ": " ++ aW2.jira_issues ++ " " ++ aW2.subject ++ rest :=
  claim2_nonempty_jira_title false aW2 (by decide)

/-- Claim C3: with `is_breaking_change`, the footer section is
`"\n\n" + "BREAKING CHANGE: " + footer`, never empty, and with an
empty footer the message still ends in `"\n\nBREAKING CHANGE: "`. -/
theorem claim3_breaking_footer (flag : Bool) (a : ConventionalCommitsAnswers)
    (h : a.is_breaking_change = true) :
    formattedFooter a = "\n\n" ++ "BREAKING CHANGE: " ++ a.footer ∧
    formattedFooter a ≠ "" ∧
    (a.footer = "" → ∃ p, message flag a = p ++ "\n\nBREAKING CHANGE: ") := by
  have he : effectiveFooter a = "BREAKING CHANGE: " ++ a.footer := by
    simp [effectiveFooter, h]
  have hne : effectiveFooter a ≠ "" := by
    rw [he]; exact str_ne_empty_left _ _ (by decide)
  have hff : formattedFooter a = "\n\n" ++ ("BREAKING CHANGE: " ++ a.footer) := by
    unfold formattedFooter
    rw [if_neg hne, he]
  refine ⟨?_, ?_, ?_⟩
  · rw [hff]; apply String.ext
    simp [String.data_append, List.append_assoc]
  · rw [hff]; exact str_ne_empty_left _ _ (by decide)
  · intro hfoot
    refine ⟨title flag a ++ formattedBody a ++ formattedJira a, ?_⟩
    unfold message
    congr 1
    rw [hff, hfoot]
    decide

/-- Witness for C3 at a breaking change with empty footer. -/
theorem claim3_witness :
    formattedFooter aW3 = "\n\n" ++ "BREAKING CHANGE: " ++ aW3.footer ∧
    formattedFooter aW3 ≠ "" ∧
    (aW3.footer = "" → ∃ p, message true aW3 = p ++ "\n\nBREAKING CHANGE: ") :=
  claim3_breaking_footer true aW3 rfl

/-- Claim C7: the issue-tracker metadata section of `message` collects
the non-empty members of `[jira_workflow, jira_time, jira_comment]` in
that order, joins them with single spaces, and renders them after a
blank line exactly when the collection is non-empty. -/
theorem claim7_metadata_section (flag : Bool) (a : ConventionalCommitsAnswers) :
    message flag a =
      title flag a ++ formattedBody a ++
        metadataSectionSpec a.jira_workflow a.jira_time a.jira_comment ++
        formattedFooter a := rfl

/-- Counterexample to C4 as stated: Python `strip(".")` removes
**leading** periods as well, so on `".fix"` the filter returns `"fix"`
while the trailing-trim reading of the claim keeps `".fix"`. -/
theorem claim4_counterexample :
    _parse_subject ".fix" = Except.ok "fix" ∧
    subjectFilterSpec ".fix" = Except.ok ".fix" ∧
    _parse_subject ".fix" ≠ subjectFilterSpec ".fix" := by decide

/-- Claim C4 (amended): the subject filter trims leading **and**
trailing periods, then whitespace, and fails with
`"Subject is required."` exactly when the result is empty. -/
theorem claim4_subject_filter (s : String) :
    (pyStrip (pyStripDots s) = "" →
      _parse_subject s = Except.error "Subject is required.") ∧
    (pyStrip (pyStripDots s) ≠ "" →
      _parse_subject s = Except.ok (pyStrip (pyStripDots s))) := by
  constructor <;> intro h <;> simp [_parse_subject, required_validator, h]

/-- Witness for C4 at the spec example `"fix a bug."`. -/
theorem claim4_witness :
    pyStrip (pyStripDots "fix a bug.") ≠ "" ∧
    _parse_subject "fix a bug." = Except.ok (pyStrip (pyStripDots "fix a bug.")) :=
  ⟨by decide, (claim4_subject_filter "fix a bug.").2 (by decide)⟩

/-- Counterexample to C6 as stated: the lambda concatenates the raw
input after `"#time "` without trimming, so `" 3h"` yields
`"#time  3h"`, not `"#time "` + trimmed input. -/
theorem claim6_counterexample :
    jiraTimeFilter " 3h" = "#time  3h" ∧
    jiraTimeFilter " 3h" ≠ jiraTimeFilterSpec " 3h" := by decide

/-- Claim C6 (amended): the jira-time filter returns `"#time "`
followed by the input **unchanged** when the input is non-empty, and
the empty string when the input is empty. -/
theorem claim6_time_filter (x : String) :
    (x = "" → jiraTimeFilter x = "") ∧
    (x ≠ "" → jiraTimeFilter x = "#time " ++ x) := by
  constructor <;> intro h <;> simp [jiraTimeFilter, h]

/-- Witness for C6 at input `"3h"`. -/
theorem claim6_witness :
    ("3h" : String) ≠ "" ∧ jiraTimeFilter "3h" = "#time " ++ "3h" :=
  ⟨by decide, (claim6_time_filter "3h").2 (by decide)⟩

/-- Claim C10: a whitespace-only input passes the jira-issues filter
vacuously and yields the empty string. -/
theorem claim10_whitespace_jira (s : String)
    (h : ∀ c ∈ s.data, isPySpace c = true) :
    _parse_jira_issues s = Except.ok "" := by
  have h1 : s.data.dropWhile isPySpace = [] :=
    List.dropWhile_eq_nil_iff.mpr h
  have h2 : pyStrip s = "" := by
    apply String.ext
    simp [pyStrip, pyStripList, h1]
  unfold _parse_jira_issues
  rw [h2]
  decide

/-- Witness for C10 at the two-space input. -/
theorem claim10_witness :
    (∀ c ∈ ("  " : String).data, isPySpace c = true) ∧
    _parse_jira_issues "  " = Except.ok "" :=
  ⟨by decide, claim10_whitespace_jira "  " (by decide)⟩

/-- Dropping leading whitespace does not change the split. -/
theorem splitWsAux_dropWhile (l : List Char) :
    splitWsAux (l.dropWhile isPySpace) [] = splitWsAux l [] := by
  induction l with
  | nil => rfl
  | cons c cs ih =>
    by_cases hc : isPySpace c <;>
      simp [List.dropWhile_cons, splitWsAux, hc, ih]

/-- Splitting an all-whitespace list only flushes the accumulator. -/
theorem splitWsAux_all_space :
    ∀ (t : List Char), (∀ c ∈ t, isPySpace c = true) →
      ∀ acc, splitWsAux t acc = if acc = [] then [] else [acc.reverse]
  | [], _, _ => rfl
  | c :: cs, ht, acc => by
    have hc : isPySpace c = true := ht c (List.mem_cons_self c cs)
    have ih := splitWsAux_all_space cs (fun d hd => ht d (List.mem_cons_of_mem c hd))
    by_cases ha : acc = [] <;> simp [splitWsAux, hc, ha, ih]

/-- Trailing whitespace does not change the split. -/
theorem splitWsAux_append_space :
    ∀ (l t : List Char), (∀ c ∈ t, isPySpace c = true) →
      ∀ acc, splitWsAux (l ++ t) acc = splitWsAux l acc
  | [], t, ht, acc => by
    simp only [List.nil_append]
    rw [splitWsAux_all_space t ht acc]
    rfl
  | c :: cs, t, ht, acc => by
    have ih := splitWsAux_append_space cs t ht
    by_cases hc : isPySpace c <;> by_cases ha : acc = [] <;>
      simp [splitWsAux, hc, ha, ih]

/-- Any list splits as its both-ends-stripped core followed by a
whitespace tail on the right. -/
theorem back_strip_spec (p : Char → Bool) (m : List Char) :
    m = (m.reverse.dropWhile p).reverse ++ (m.reverse.takeWhile p).reverse ∧
    ∀ c ∈ (m.reverse.takeWhile p).reverse, p c = true := by
  constructor
  · calc m = m.reverse.reverse := (List.reverse_reverse m).symm
    _ = (m.reverse.takeWhile p ++ m.reverse.dropWhile p).reverse := by
        rw [List.takeWhile_append_dropWhile]
    _ = (m.reverse.dropWhile p).reverse ++ (m.reverse.takeWhile p).reverse := by
        rw [List.reverse_append]
  · intro c hc
    exact List.mem_takeWhile_imp (List.mem_reverse.mp hc)

/-- Python `strip()` does not change the outcome of `split()`. -/
theorem splitWs_pyStripList (l : List Char) :
    splitWs (pyStripList isPySpace l) = splitWs l := by
  unfold pyStripList splitWs
  obtain ⟨hdecomp, hall⟩ := back_strip_spec isPySpace (l.dropWhile isPySpace)
  calc splitWsAux (((l.dropWhile isPySpace).reverse.dropWhile isPySpace)).reverse []
      = splitWsAux ((((l.dropWhile isPySpace).reverse.dropWhile isPySpace)).reverse ++
          ((l.dropWhile isPySpace).reverse.takeWhile isPySpace).reverse) [] :=
        (splitWsAux_append_space _ _ hall []).symm
    _ = splitWsAux (l.dropWhile isPySpace) [] := by rw [← hdecomp]
    _ = splitWsAux l [] := splitWsAux_dropWhile l

/-- String-level form of `splitWs_pyStripList`. -/
theorem pySplit_pyStrip (s : String) : pySplit (pyStrip s) = pySplit s := by
  show ((splitWs (pyStripList isPySpace s.data)).map String.mk) = _
  rw [splitWs_pyStripList]
  rfl

/-- Every token produced by the split is non-empty and whitespace-free. -/
theorem splitWsAux_tokens :
    ∀ (l acc : List Char), (∀ c ∈ acc, isPySpace c = false) →
      ∀ w ∈ splitWsAux l acc, w ≠ [] ∧ ∀ c ∈ w, isPySpace c = false
  | [], acc, hacc, w, hw => by
    by_cases ha : acc = []
    · simp [splitWsAux, ha] at hw
    · simp only [splitWsAux, if_neg ha, List.mem_singleton] at hw
      subst hw
      refine ⟨by simpa using ha, fun c hc => hacc c (List.mem_reverse.mp hc)⟩
  | c :: cs, acc, hacc, w, hw => by
    by_cases hc : isPySpace c
    · by_cases ha : acc = []
      · simp only [splitWsAux, if_pos hc, if_pos ha] at hw
        exact splitWsAux_tokens cs [] (by simp) w hw
      · simp only [splitWsAux, if_pos hc, if_neg ha, List.mem_cons] at hw
        rcases hw with hw | hw
        · subst hw
          refine ⟨by simpa using ha, fun d hd => hacc d (List.mem_reverse.mp hd)⟩
        · exact splitWsAux_tokens cs [] (by simp) w hw
    · simp only [splitWsAux, if_neg hc] at hw
      refine splitWsAux_tokens cs (c :: acc) ?_ w hw
      intro d hd
      rcases List.mem_cons.mp hd with h | h
      · subst h; simpa using hc
      · exact hacc d h

/-- Splitting a single whitespace-free word flushes it whole. -/
theorem splitWsAux_word :
    ∀ (w acc : List Char), (∀ c ∈ w, isPySpace c = false) →
      acc.reverse ++ w ≠ [] → splitWsAux w acc = [acc.reverse ++ w]
  | [], acc, _, hne => by
    have ha : acc ≠ [] := by simpa using hne
    simp [splitWsAux, ha]
  | c :: cs, acc, hw, _ => by
    have hc : isPySpace c = false := hw c (List.mem_cons_self c cs)
    have ih := splitWsAux_word cs (c :: acc)
      (fun d hd => hw d (List.mem_cons_of_mem c hd)) (by simp)
    simp [splitWsAux, hc, ih, List.append_assoc]

/-- Splitting a whitespace-free word followed by a single space emits
the word and continues after the space. -/
theorem splitWsAux_word_sep :
    ∀ (w more acc : List Char), (∀ c ∈ w, isPySpace c = false) →
      acc.reverse ++ w ≠ [] →
      splitWsAux (w ++ ' ' :: more) acc = (acc.reverse ++ w) :: splitWsAux more []
  | [], more, acc, _, hne => by
    have ha : acc ≠ [] := by simpa using hne
    simp [splitWsAux, isPySpace, ha]
  | c :: cs, more, acc, hw, _ => by
    have hc : isPySpace c = false := hw c (List.mem_cons_self c cs)
    have ih := splitWsAux_word_sep cs more (c :: acc)
      (fun d hd => hw d (List.mem_cons_of_mem c hd)) (by simp)
    simp [splitWsAux, hc, ih, List.append_assoc]

/-- Splitting the space-join of non-empty whitespace-free words gives
the words back. -/
theorem splitWs_joinWs :
    ∀ (ws : List (List Char)),
      (∀ w ∈ ws, w ≠ [] ∧ ∀ c ∈ w, isPySpace c = false) →
      splitWs (joinWs ws) = ws
  | [], _ => rfl
  | [w], h => by
    obtain ⟨hne, hch⟩ := h w (List.mem_singleton.mpr rfl)
    show splitWsAux w [] = [w]
    rw [splitWsAux_word w [] hch (by simpa using hne)]
    rfl
  | w :: x :: ws, h => by
    obtain ⟨hne, hch⟩ := h w (List.mem_cons_self _ _)
    have ih := splitWs_joinWs (x :: ws) (fun v hv => h v (List.mem_cons_of_mem w hv))
    show splitWsAux (w ++ ' ' :: joinWs (x :: ws)) [] = w :: x :: ws
    rw [splitWsAux_word_sep w (joinWs (x :: ws)) [] hch (by simpa using hne)]
    rw [show splitWsAux (joinWs (x :: ws)) [] = splitWs (joinWs (x :: ws)) from rfl, ih]
    rfl

/-- The data of the space-join of strings is the list-level join of
their data. -/
theorem joinSep_space_data :
    ∀ (ws : List (List Char)), (joinSep " " (ws.map String.mk)).data = joinWs ws
  | [] => rfl
  | [_] => rfl
  | w :: x :: ws => by
    have ih := joinSep_space_data (x :: ws)
    show (String.mk w ++ " " ++ joinSep " " ((x :: ws).map String.mk)).data = _
    rw [String.data_append, String.data_append, ih]
    simp [joinWs]

/-- Re-splitting the normalised join recovers the original tokens. -/
theorem pySplit_join (s : String) :
    pySplit (joinSep " " (pySplit s)) = pySplit s := by
  unfold pySplit
  rw [joinSep_space_data (splitWs s.data)]
  rw [splitWs_joinWs (splitWs s.data) (splitWsAux_tokens s.data [] (by simp))]

/-- Claim C5: the jira-issues filter returns the whitespace-normalised
input (tokens of the raw input joined by single spaces), failing with
the fixed message exactly when some whitespace-separated token is not
an issue key. -/
theorem claim5_jira_filter (s : String) :
    _parse_jira_issues s =
      if (pySplit s).all isIssueKey then Except.ok (joinSep " " (pySplit s))
      else Except.error "Enter valid Jira issue keys (e.g., JRA-123)." := by
  simp only [_parse_jira_issues]
  rw [pySplit_pyStrip, pySplit_join]

set_option maxRecDepth 40000 in
/-- Claim C8: the pattern returned by `schema_pattern()`, interpreted
with dot-matches-all semantics and anchored at both ends, accepts the
full message returned by `example()`. -/
theorem claim8_schema_matches_example :
    reAccept 100000 schemaPatternRE exampleMessage = true := by
  decide

/-- Counterexample to C9 as stated: an answer set whose raw free-text
`footer` ends in a blank line produces a message ending in `"\n\n"`. -/
theorem claim9_counterexample :
    "\n\n".data <:+ (message false aC9).data :=
  ⟨"fix: s\n\nx".data, by decide⟩

/-- A list with `['\n', '\n']` as suffix ends in a newline. -/
theorem getLast?_of_suffix_lf {l : List Char}
    (h : ['\n', '\n'] <:+ l) : l.getLast? = some '\n' := by
  obtain ⟨t, ht⟩ := h
  rw [← ht, List.getLast?_append_of_ne_nil t (by simp)]
  rfl

/-- A non-empty string has non-empty data. -/
theorem data_ne_nil_of_ne_empty {s : String} (h : s ≠ "") : s.data ≠ [] :=
  fun hd => h ((str_eq_empty_iff s).mpr hd)

/-- The space-join of a non-empty list of non-empty strings is
non-empty. -/
theorem joinSep_space_ne_empty :
    ∀ (x : String) (l : List String), x ≠ "" → joinSep " " (x :: l) ≠ ""
  | _, [], hx => hx
  | x, _ :: _, hx => str_ne_empty_left _ _ (str_ne_empty_left x " " hx)

/-- The last character of a space-join is the last character of one of
the joined strings. -/
theorem joinSep_space_getLast :
    ∀ (l : List String), (∀ x ∈ l, x ≠ "") → l ≠ [] →
      ∃ x ∈ l, (joinSep " " l).data.getLast? = x.data.getLast?
  | [], _, hl => absurd rfl hl
  | [x], _, _ => ⟨x, List.mem_singleton.mpr rfl, rfl⟩
  | x :: y :: rest, hne, _ => by
    obtain ⟨z, hz, hzl⟩ := joinSep_space_getLast (y :: rest)
      (fun v hv => hne v (List.mem_cons_of_mem x hv)) (by simp)
    have hy : y ≠ "" := hne y (List.mem_cons_of_mem x (List.mem_cons_self y rest))
    refine ⟨z, List.mem_cons_of_mem x hz, ?_⟩
    show ((x ++ " " ++ joinSep " " (y :: rest))).data.getLast? = _
    rw [String.data_append,
      List.getLast?_append_of_ne_nil _
        (data_ne_nil_of_ne_empty (joinSep_space_ne_empty y rest hy)), hzl]

/-- The title line never ends in a newline when the subject does not. -/
theorem title_no_lf (flag : Bool) (a : ConventionalCommitsAnswers)
    (hs : lastChar? a.subject ≠ some '\n') :
    (title flag a).data.getLast? ≠ some '\n' := by
  by_cases hj : a.jira_issues = ""
  · have heq : title flag a = titleHead flag a ++ ": " ++ a.subject := by
      simp [title, hj]
    rw [heq, String.data_append]
    by_cases hsub : a.subject = ""
    · rw [(str_eq_empty_iff _).mp hsub, List.append_nil, String.data_append]
      rw [List.getLast?_append_of_ne_nil _ (by decide : (": ").data ≠ [])]
      decide
    · rw [List.getLast?_append_of_ne_nil _ (data_ne_nil_of_ne_empty hsub)]
      exact hs
  · have heq : title flag a =
        titleHead flag a ++ ": " ++ a.jira_issues ++ " " ++ a.subject := by
      simp [title, hj]
    rw [heq, String.data_append]
    by_cases hsub : a.subject = ""
    · rw [(str_eq_empty_iff _).mp hsub, List.append_nil, String.data_append]
      rw [List.getLast?_append_of_ne_nil _ (by decide : (" ").data ≠ [])]
      decide
    · rw [List.getLast?_append_of_ne_nil _ (data_ne_nil_of_ne_empty hsub)]
      exact hs

/-- Claim C9 (amended): when none of `subject`, `body`,
`jira_workflow`, `jira_time`, `jira_comment`, `footer` ends in a
newline, the composed message never ends with `"\n\n"`: each blank-line
separator is emitted only together with the non-empty section text it
introduces. -/
theorem claim9_no_trailing_blank (flag : Bool) (a : ConventionalCommitsAnswers)
    (hs : lastChar? a.subject ≠ some '\n') (hb : lastChar? a.body ≠ some '\n')
    (hw : lastChar? a.jira_workflow ≠ some '\n') (ht : lastChar? a.jira_time ≠ some '\n')
    (hc : lastChar? a.jira_comment ≠ some '\n') (hf : lastChar? a.footer ≠ some '\n') :
    ¬ ("\n\n".data <:+ (message flag a).data) := by
  intro hsuf
  have hdata : ("\n\n").data = ['\n', '\n'] := rfl
  rw [hdata] at hsuf
  have hlf : (message flag a).data.getLast? = some '\n' := getLast?_of_suffix_lf hsuf
  refine absurd hlf ?_
  have happ : (message flag a).data =
      ((title flag a).data ++ (formattedBody a).data ++ (formattedJira a).data) ++
        (formattedFooter a).data := by
    simp [message, String.data_append]
  rw [happ]
  by_cases hef : effectiveFooter a = ""
  · have hffd : (formattedFooter a).data = [] := by simp [formattedFooter, hef]
    rw [hffd, List.append_nil]
    by_cases hjp : jiraParts a = []
    · have hfjd : (formattedJira a).data = [] := by simp [formattedJira, hjp]
      rw [hfjd, List.append_nil]
      by_cases hbody : a.body = ""
      · have hfbd : (formattedBody a).data = [] := by simp [formattedBody, hbody]
        rw [hfbd, List.append_nil]
        exact title_no_lf flag a hs
      · have hfb : formattedBody a = "\n\n" ++ a.body := by simp [formattedBody, hbody]
        rw [hfb, String.data_append, ← List.append_assoc]
        rw [List.getLast?_append_of_ne_nil _ (data_ne_nil_of_ne_empty hbody)]
        exact hb
    · have hfj : formattedJira a = "\n\n" ++ joinSep " " (jiraParts a) := by
        simp [formattedJira, hjp]
      have hne : ∀ x ∈ jiraParts a, x ≠ "" := by
        intro x hx
        have h2 := (List.mem_filter.mp hx).2
        simpa using h2
      obtain ⟨x, hx, hxl⟩ := joinSep_space_getLast (jiraParts a) hne hjp
      have hjoin_ne : (joinSep " " (jiraParts a)).data ≠ [] := by
        cases hparts : jiraParts a with
        | nil => exact absurd hparts hjp
        | cons y l =>
          refine data_ne_nil_of_ne_empty (joinSep_space_ne_empty y l ?_)
          exact (hparts ▸ hne) y (List.mem_cons_self y l)
      rw [hfj, String.data_append, ← List.append_assoc]
      rw [List.getLast?_append_of_ne_nil _ hjoin_ne, hxl]
      have hx3 := (List.mem_filter.mp hx).1
      simp only [List.mem_cons, List.not_mem_nil, or_false] at hx3
      rcases hx3 with rfl | rfl | rfl
      · exact hw
      · exact ht
      · exact hc
  · have hff : formattedFooter a = "\n\n" ++ effectiveFooter a := by
      simp [formattedFooter, hef]
    have heffd : (effectiveFooter a).data ≠ [] := data_ne_nil_of_ne_empty hef
    rw [hff, String.data_append, ← List.append_assoc]
    rw [List.getLast?_append_of_ne_nil _ heffd]
    cases hbc : a.is_breaking_change
    · have heq : effectiveFooter a = a.footer := by simp [effectiveFooter, hbc]
      rw [heq]
      exact hf
    · have heq : effectiveFooter a = "BREAKING CHANGE: " ++ a.footer := by
        simp [effectiveFooter, hbc]
      rw [heq, String.data_append]
      by_cases hfoot : a.footer = ""
      · rw [(str_eq_empty_iff _).mp hfoot, List.append_nil]
        decide
      · rw [List.getLast?_append_of_ne_nil _ (data_ne_nil_of_ne_empty hfoot)]
        exact hf

/-- Witness for the amended C9 at a fully populated newline-free
answer set. -/
theorem claim9_witness :
    lastChar? aW9.subject ≠ some '\n' ∧ lastChar? aW9.body ≠ some '\n' ∧
    lastChar? aW9.jira_workflow ≠ some '\n' ∧ lastChar? aW9.jira_time ≠ some '\n' ∧
    lastChar? aW9.jira_comment ≠ some '\n' ∧ lastChar? aW9.footer ≠ some '\n' ∧
    ¬ ("\n\n".data <:+ (message false aW9).data) :=
  ⟨by decide, by decide, by decide, by decide, by decide, by decide,
    claim9_no_trailing_blank false aW9 (by decide) (by decide) (by decide)
      (by decide) (by decide) (by decide)⟩

end Cz
